import Mathlib

/-!
Shallow embedding of the PN532 page-navigation controllers of the qr-scanner
repository (pn532_controller.py, page_navigation_controller.py,
multi_tag_handler.py), together with theorems settling the frozen claims
about the frame codec, the mapping store, multi-tag arbitration, debounce,
the learning state machine and shutdown ordering.

Modeling conventions:
- machine bytes are Nat values below 256; Python masking `& 0xFF` is `% 256`;
- a Python dict is an association list with unique keys; assignment keeps the
  position of an existing key, as CPython insertion order does;
- the serial stream is a list of bytes; `serial.read(n)` with a timeout
  returns up to `n` bytes, i.e. `take n` of what is available;
- wall-clock times and cooldown durations are rationals;
- hardware inputs (the serial stream, the decoded content of a tag block
  read) are explicit parameters of the step functions.
-/

/-- Lookup in an association list modeling a Python dict. -/
def dlookup {α β : Type} [DecidableEq α] (k : α) : List (α × β) → Option β
  | [] => none
  | (a, b) :: t => if a = k then some b else dlookup k t

/-- Insert or overwrite a key; an existing key keeps its position, as Python
dict assignment does. -/
def dinsert {α β : Type} [DecidableEq α] (k : α) (v : β) : List (α × β) → List (α × β)
  | [] => [(k, v)]
  | (a, b) :: t => if a = k then (a, v) :: t else (a, b) :: dinsert k v t

/-- Delete a key, modeling Python `del d[k]` on a dict (keys are unique in
every reachable state). -/
def derase {α β : Type} [DecidableEq α] (k : α) : List (α × β) → List (α × β)
  | [] => []
  | (a, b) :: t => if a = k then t else (a, b) :: derase k t

/-- Keys of an association list. -/
def dkeys {α β : Type} (l : List (α × β)) : List α := l.map Prod.fst

/-- Python `(~x + 1) & 0xFF` for a nonnegative x: the two's-complement of x
modulo 256. -/
def pyNeg8 (x : Nat) : Nat := (256 - x % 256) % 256

/-- Lower-case hexadecimal digit for a value below 16. -/
def hexDigit (n : Nat) : Char := if n < 10 then Char.ofNat (48 + n) else Char.ofNat (87 + n)

/-- Python `f-string 02x` formatting of one byte (values below 256 give
exactly two lower-case hex digits). -/
def byteHex (b : Nat) : String := String.mk [hexDigit (b / 16 % 16), hexDigit (b % 16)]

/-- The derived UID-hex mapping key: `join(f-string 02x of b for b in uid)`. -/
def uidHex (uid : List Nat) : String := String.join (uid.map byteHex)

/-! Command constants of pn532_controller.py. -/

def PN532_PREAMBLE : Nat := 0x00
def PN532_STARTCODE1 : Nat := 0x00
def PN532_STARTCODE2 : Nat := 0xFF
def PN532_POSTAMBLE : Nat := 0x00

namespace PN532Controller

/-- PN532Controller.build_command: frame a command payload as
preamble, start codes, length, length checksum, direction byte 0xD4,
payload, payload checksum, postamble. -/
def build_command (data : List Nat) : List Nat :=
  let length := data.length + 1
  let checksum := pyNeg8 length
  let cmd := [PN532_PREAMBLE, PN532_STARTCODE1, PN532_STARTCODE2, length, checksum, 0xD4] ++ data
  let data_checksum := pyNeg8 (data.foldl (fun a b => a + b) 0xD4)
  cmd ++ [data_checksum, PN532_POSTAMBLE]

/-- PN532Controller.read_response on a serial stream: reads a six byte
header, checks the magic, rejects zero length, reads length + 2 further
bytes, verifies the trailing checksum and strips what the code takes for
the direction byte. -/
def read_response (stream : List Nat) : Option (List Nat) :=
  let header := stream.take 6
  if header.length < 6 then none
  else if ¬ header.take 3 = [0x00, 0x00, 0xFF] then none
  else
    let length := header.getD 3 0
    if length = 0 then none
    else
      let data := (stream.drop 6).take (length + 2)
      if data.length < length + 2 then none
      else
        let checksum := (data.take (data.length - 2)).foldl (fun a b => a + b) 0 % 256
        if ¬ checksum = (256 - data.getD (data.length - 2) 0) % 256 then none
        else some ((data.drop 1).take (data.length - 3))

/-- PN532Controller.parse_page_from_data, applied to the utf-8 decoded and
stripped text of a tag block: a bare decimal number, or the Chinese
bracket form with a decimal number inside, each accepted only within
[1, total_pages]. -/
def parse_page_from_data (total_pages : Nat) (text0 : String) : Option Nat :=
  let text := text0.trim
  let direct :=
    match text.toNat? with
    | some page_num => if 1 ≤ page_num ∧ page_num ≤ total_pages then some page_num else none
    | none => none
  match direct with
  | some p => some p
  | none =>
    if text.startsWith "第" && text.endsWith "页" then
      match ((text.drop 1).dropRight 1).toNat? with
      | some page_num => if 1 ≤ page_num ∧ page_num ≤ total_pages then some page_num else none
      | none => none
    else none

/-- Tag record parsed by PN532Controller.detect_tag. -/
structure TagInfo where
  tag_number : Nat
  sens_res : Nat
  sel_res : Nat
  uid : List Nat
  deriving DecidableEq

/-- State of a PN532Controller instance. The saved_file component models
the durable mapping file on disk; no method of this class ever writes it
(the class defines no save or load operation). -/
structure State where
  port : Option String
  baudrate : Nat
  udp_port : Nat
  total_pages : Nat
  page_mappings : List (Nat × String)
  reverse_mappings : List (String × Nat)
  last_tag_uid : Option String
  last_tag_time : ℚ
  tag_cooldown : ℚ
  learning_mode : Bool
  current_learning_page : Nat
  is_running : Bool
  saved_file : Option (List (Nat × String) × Nat)
  deriving DecidableEq

/-- PN532Controller.__init__(port, baudrate, udp_port, total_pages) with
defaults baudrate=115200, udp_port=8890, total_pages=10, tag_cooldown=0.5. -/
def init (port : Option String) (baudrate udp_port total_pages : Nat) : State :=
  { port := port
    baudrate := baudrate
    udp_port := udp_port
    total_pages := total_pages
    page_mappings := []
    reverse_mappings := []
    last_tag_uid := none
    last_tag_time := 0
    tag_cooldown := 1/2
    learning_mode := false
    current_learning_page := 1
    is_running := false
    saved_file := none }

/-- Destination UDP port of PN532Controller.send_navigation_command:
the sendto target is ('127.0.0.1', self.udp_port). -/
def navigation_dest_port (s : State) : Nat := s.udp_port

/-- PN532Controller.add_page_mapping: inside [1, total_pages] update both
in-memory indices; otherwise do nothing. This class never persists. -/
def add_page_mapping (page_number : Nat) (uid_hex : String) (s : State) : State :=
  if 1 ≤ page_number ∧ page_number ≤ s.total_pages then
    { s with page_mappings := dinsert page_number uid_hex s.page_mappings,
             reverse_mappings := dinsert uid_hex page_number s.reverse_mappings }
  else s

/-- PN532Controller.start_learning_mode. -/
def start_learning_mode (s : State) : State :=
  { s with learning_mode := true, current_learning_page := 1 }

/-- PN532Controller.learn_page_mapping. -/
def learn_page_mapping (uid_hex : String) (s : State) : State :=
  if s.current_learning_page ≤ s.total_pages then
    let s1 := add_page_mapping s.current_learning_page uid_hex s
    let s2 := { s1 with current_learning_page := s1.current_learning_page + 1 }
    if s2.current_learning_page ≤ s2.total_pages then s2
    else { s2 with learning_mode := false }
  else s

/-- PN532Controller.process_tag as a step function. now models time.time();
block_text models the utf-8 decoded content that read_tag_data would return
for this tag (none when the hardware read fails). The second component is
the page number of the emitted navigation event, none when nothing is
sent. -/
def process_tag (s : State) (tag : TagInfo) (now : ℚ) (block_text : Option String) :
    State × Option Nat :=
  let uid_hex := uidHex tag.uid
  if s.last_tag_uid = some uid_hex ∧ now - s.last_tag_time < s.tag_cooldown then (s, none)
  else
    let s := { s with last_tag_uid := some uid_hex, last_tag_time := now }
    if s.learning_mode then (learn_page_mapping uid_hex s, none)
    else
      match dlookup uid_hex s.reverse_mappings with
      | some page_number => (s, some page_number)
      | none =>
        match block_text with
        | some text =>
          match parse_page_from_data s.total_pages text with
          | some page_number => (add_page_mapping page_number uid_hex s, some page_number)
          | none => (s, none)
        | none => (s, none)

end PN532Controller

namespace PageNavigationController

/-- State of a PageNavigationController instance. The saved_file component
models the page_mappings.json file written by save_mappings and read by
load_mappings (forward map together with the stored total_pages); the
navigation statistics and all printing are display only and not modeled. -/
structure State where
  udp_host : String
  udp_port : Nat
  total_pages : Nat
  page_mappings : List (Nat × String)
  reverse_mappings : List (String × Nat)
  last_tag_id : Option String
  last_tag_time : ℚ
  tag_cooldown : ℚ
  learning_mode : Bool
  current_learning_page : Nat
  is_running : Bool
  saved_file : Option (List (Nat × String) × Nat)
  deriving DecidableEq

/-- PageNavigationController.__init__ with defaults udp_host 127.0.0.1,
udp_port 8890, total_pages 10, tag_cooldown 0.5. -/
def init (udp_host : String) (udp_port total_pages : Nat) : State :=
  { udp_host := udp_host
    udp_port := udp_port
    total_pages := total_pages
    page_mappings := []
    reverse_mappings := []
    last_tag_id := none
    last_tag_time := 0
    tag_cooldown := 1/2
    learning_mode := false
    current_learning_page := 1
    is_running := false
    saved_file := none }

/-- PageNavigationController.save_mappings: synchronously writes the forward
map and total_pages to the durable file (the created_time field carries no
information for the claims). Keys travel through json as decimal strings
and come back unchanged through the int conversion in load_mappings. -/
def save_mappings (s : State) : State :=
  { s with saved_file := some (s.page_mappings, s.total_pages) }

/-- PageNavigationController.add_page_mapping: inside [1, total_pages]
update both indices and persist synchronously; otherwise print an error and
change nothing. -/
def add_page_mapping (page_number : Nat) (tag_id : String) (s : State) : State :=
  if 1 ≤ page_number ∧ page_number ≤ s.total_pages then
    save_mappings
      { s with page_mappings := dinsert page_number tag_id s.page_mappings,
               reverse_mappings := dinsert tag_id page_number s.reverse_mappings }
  else s

/-- PageNavigationController.remove_page_mapping: when the page is present,
delete the forward entry, delete the reverse entry of its uid, persist.
When the uid is missing from the reverse index the Python del raises
KeyError after the forward delete; the console loop catches it, so the
state keeps the partial mutation and nothing is persisted. -/
def remove_page_mapping (page_number : Nat) (s : State) : State :=
  match dlookup page_number s.page_mappings with
  | none => s
  | some tag_id =>
    let s1 := { s with page_mappings := derase page_number s.page_mappings }
    if (dlookup tag_id s.reverse_mappings).isSome then
      save_mappings { s1 with reverse_mappings := derase tag_id s.reverse_mappings }
    else s1

/-- Reverse index rebuilt by load_mappings: the Python dict comprehension
iterating the forward map in order, later entries overwriting earlier
ones. -/
def build_reverse (l : List (Nat × String)) : List (String × Nat) :=
  l.foldl (fun acc kv => dinsert kv.2 kv.1 acc) []

/-- PageNavigationController.load_mappings: on a missing file nothing
changes; otherwise the forward map is replaced by the stored one and the
reverse index is rebuilt from it. A stored total_pages differing from the
running one only prints a warning. -/
def load_mappings (s : State) : State :=
  match s.saved_file with
  | none => s
  | some (pm, _saved_total) =>
    { s with page_mappings := pm, reverse_mappings := build_reverse pm }

/-- PageNavigationController.start_learning_mode. -/
def start_learning_mode (s : State) : State :=
  { s with learning_mode := true, current_learning_page := 1 }

/-- PageNavigationController.stop_learning_mode (the mapping display it
triggers is print only). -/
def stop_learning_mode (s : State) : State :=
  { s with learning_mode := false }

/-- PageNavigationController.learn_page_mapping. -/
def learn_page_mapping (tag_id : String) (s : State) : State :=
  if s.current_learning_page ≤ s.total_pages then
    let s1 := add_page_mapping s.current_learning_page tag_id s
    let s2 := { s1 with current_learning_page := s1.current_learning_page + 1 }
    if s2.current_learning_page ≤ s2.total_pages then s2
    else stop_learning_mode s2
  else s

/-- Add or remove operations on the mapping store, as claim C2 quantifies
over them. -/
inductive MapOp where
  | add : Nat → String → MapOp
  | remove : Nat → MapOp
  deriving DecidableEq

/-- Apply one mapping-store operation. -/
def apply_op (s : State) : MapOp → State
  | .add p u => add_page_mapping p u s
  | .remove p => remove_page_mapping p s

/-- Run a sequence of mapping-store operations. -/
def run_ops (s : State) (ops : List MapOp) : State := ops.foldl apply_op s

/-- An add is benign when its uid is currently unmapped or already mapped to
the same page; removes are always benign. -/
def good_op (s : State) : MapOp → Bool
  | .add p u =>
    match dlookup u s.reverse_mappings with
    | none => true
    | some q => q == p
  | .remove _ => true

/-- A sequence of operations each benign in the state it is applied to. -/
def good_seq : State → List MapOp → Bool
  | _, [] => true
  | s, op :: t => good_op s op && good_seq (apply_op s op) t

end PageNavigationController

namespace MultiTagHandler

/-- Tag record parsed by MultiTagHandler.detect_multiple_tags. -/
structure MTagInfo where
  tag_number : Nat
  sens_res : Nat
  sel_res : Nat
  uid : List Nat
  detection_time : ℚ
  signal_strength : String
  deriving DecidableEq

/-- State of a MultiTagHandler instance: the inherited PN532Controller
attributes plus the multi-tag configuration and history. -/
structure State where
  base : PN532Controller.State
  max_tags : Nat
  tag_priority_strategy : String
  multi_tag_cooldown : ℚ
  tag_history : List (ℚ × Nat × String × List String)
  last_detected_tags : List MTagInfo
  deriving DecidableEq

/-- MultiTagHandler.__init__(port, udp_port, total_pages): the base
constructor is called positionally as super().__init__(port, udp_port,
total_pages) against (port, baudrate, udp_port, total_pages), so baudrate
receives the requested udp_port, udp_port receives the requested
total_pages, and total_pages keeps the base default 10. -/
def init (port : Option String) (udp_port total_pages : Nat) : State :=
  { base := PN532Controller.init port udp_port total_pages 10
    max_tags := 2
    tag_priority_strategy := "closest"
    multi_tag_cooldown := 1
    tag_history := []
    last_detected_tags := [] }

/-- MultiTagHandler.estimate_signal_strength. -/
def estimate_signal_strength (sens_res : Nat) : String :=
  if sens_res > 0x0040 then "strong"
  else if sens_res > 0x0020 then "medium"
  else "weak"

/-- Record-parsing loop of MultiTagHandler.detect_multiple_tags. The fuel
argument is the remaining iteration count of range(num_tags). Indexing
response[offset + 1] .. response[offset + 4] happens before any bound
check in the code; an out-of-range index raises IndexError, which the
inner try/except turns into a break, modeled by the catch-all branch. -/
def parse_tags_loop (response : List Nat) (t : ℚ) : Nat → Nat → List MTagInfo
  | 0, _ => []
  | Nat.succ n, offset =>
    if offset ≥ response.length then []
    else
      match response[offset]?, response[offset + 1]?, response[offset + 2]?,
            response[offset + 3]?, response[offset + 4]? with
      | some tag_number, some hi, some lo, some sel_res, some uid_length =>
        if offset + 5 + uid_length > response.length then []
        else
          let sens_res := (hi <<< 8) ||| lo
          let uid := (response.drop (offset + 5)).take uid_length
          { tag_number := tag_number, sens_res := sens_res, sel_res := sel_res,
            uid := uid, detection_time := t,
            signal_strength := estimate_signal_strength sens_res } ::
            parse_tags_loop response t n (offset + 5 + uid_length)
      | _, _, _, _, _ => []

/-- MultiTagHandler.detect_multiple_tags applied to the read_response
result (none models a failed read) at detection time t. -/
def detect_multiple_tags (response : Option (List Nat)) (t : ℚ) : List MTagInfo :=
  match response with
  | none => []
  | some r =>
    if r.length < 1 then []
    else
      let num_tags := r.getD 0 0
      if num_tags = 0 then []
      else parse_tags_loop r t num_tags 1

/-- Python max(iterable, key=f): the first element whose key no later
element strictly exceeds. -/
def py_max_by {α β : Type} [LinearOrder β] (f : α → β) : List α → Option α
  | [] => none
  | x :: t => some (t.foldl (fun best y => if f best < f y then y else best) x)

/-- Python min(iterable, key=f): the first element with minimal key. -/
def py_min_by {α β : Type} [LinearOrder β] (f : α → β) : List α → Option α
  | [] => none
  | x :: t => some (t.foldl (fun best y => if f y < f best then y else best) x)

/-- MultiTagHandler.select_by_mapping_priority: partition into mapped and
unmapped tags; any mapped tag present wins by smallest mapped page,
otherwise the unmapped tag with greatest sens_res wins. -/
def select_by_mapping_priority (s : State) (tags : List MTagInfo) : Option MTagInfo :=
  let mapped_tags := tags.filter
    (fun tg => (dlookup (uidHex tg.uid) s.base.reverse_mappings).isSome)
  let unmapped_tags := tags.filter
    (fun tg => (dlookup (uidHex tg.uid) s.base.reverse_mappings).isNone)
  if ¬ mapped_tags = [] then
    py_min_by (fun tg => (dlookup (uidHex tg.uid) s.base.reverse_mappings).getD 0) mapped_tags
  else
    py_max_by (fun tg => tg.sens_res) unmapped_tags

/-- MultiTagHandler.select_priority_tag. -/
def select_priority_tag (s : State) (tags : List MTagInfo) : Option MTagInfo :=
  if tags = [] then none
  else if tags.length = 1 then tags.head?
  else if s.tag_priority_strategy = "closest" then py_max_by (fun tg => tg.sens_res) tags
  else if s.tag_priority_strategy = "newest" then py_max_by (fun tg => tg.detection_time) tags
  else if s.tag_priority_strategy = "specific" then select_by_mapping_priority s tags
  else tags.head?

/-- MultiTagHandler.process_selected_tag: emit for a mapped uid, otherwise
try the hardware block read (its decoded text given as block_text) and
auto-learn, otherwise emit nothing. -/
def process_selected_tag (s : State) (tg : MTagInfo) (block_text : Option String) :
    State × Option Nat :=
  let uid_hex := uidHex tg.uid
  match dlookup uid_hex s.base.reverse_mappings with
  | some page_number => (s, some page_number)
  | none =>
    match block_text with
    | some text =>
      match PN532Controller.parse_page_from_data s.base.total_pages text with
      | some page_number =>
        ({ s with base := PN532Controller.add_page_mapping page_number uid_hex s.base },
          some page_number)
      | none => (s, none)
    | none => (s, none)

/-- MultiTagHandler.process_multiple_tags as a step function: select the
priority tag, debounce against the last accepted uid and time with the
multi-tag cooldown, record history, then learn or dispatch. -/
def process_multiple_tags (s : State) (tags : List MTagInfo) (now : ℚ)
    (block_text : Option String) : State × Option Nat :=
  match select_priority_tag s tags with
  | none => (s, none)
  | some priority_tag =>
    let priority_uid := uidHex priority_tag.uid
    if s.base.last_tag_uid = some priority_uid ∧
        now - s.base.last_tag_time < s.multi_tag_cooldown then (s, none)
    else
      let s1 := { s with
        base := { s.base with last_tag_uid := some priority_uid, last_tag_time := now },
        last_detected_tags := tags }
      let hist := s1.tag_history ++
        [(now, tags.length, priority_uid, tags.map (fun tg => uidHex tg.uid))]
      let s2 := { s1 with
        tag_history := if hist.length > 100 then hist.drop (hist.length - 50) else hist }
      if s2.base.learning_mode then
        ({ s2 with base := PN532Controller.learn_page_mapping priority_uid s2.base }, none)
      else process_selected_tag s2 priority_tag block_text

end MultiTagHandler

/-- Modelled from the spec: the records of a multi-tag response that are
fully contained before the truncation point, the offset advancing by each
record's exact declared size (5 header bytes plus the declared uid
length). -/
def spec_contained_loop (response : List Nat) (t : ℚ) : Nat → Nat → List MultiTagHandler.MTagInfo
  | 0, _ => []
  | Nat.succ n, offset =>
    if offset + 5 ≤ response.length ∧
        offset + 5 + response.getD (offset + 4) 0 ≤ response.length then
      let uid_length := response.getD (offset + 4) 0
      let sens_res := (response.getD (offset + 1) 0 <<< 8) ||| response.getD (offset + 2) 0
      { tag_number := response.getD offset 0, sens_res := sens_res,
        sel_res := response.getD (offset + 3) 0,
        uid := (response.drop (offset + 5)).take uid_length,
        detection_time := t,
        signal_strength := MultiTagHandler.estimate_signal_strength sens_res } ::
        spec_contained_loop response t n (offset + 5 + uid_length)
    else []

/-- Modelled from the spec: detect_multiple on a response buffer returns
exactly the declared-count prefix of fully contained records. -/
def spec_detect_multiple (response : List Nat) (t : ℚ) : List MultiTagHandler.MTagInfo :=
  if response.length < 1 then []
  else
    let num_tags := response.getD 0 0
    if num_tags = 0 then []
    else spec_contained_loop response t num_tags 1

/-- Externally visible shutdown actions, in program order. -/
inductive ShutdownStep where
  | set_running_false
  | close_serial
  | close_clf
  | close_socket
  | save_store
  deriving DecidableEq

namespace PN532Controller

/-- Action trace of PN532Controller.stop_monitoring: clear the running
flag, close the serial channel when open, close the UDP socket. No
mapping flush exists in this class. -/
def stop_monitoring_trace (serial_conn_open : Bool) : List ShutdownStep :=
  [ShutdownStep.set_running_false] ++
    (if serial_conn_open then [ShutdownStep.close_serial] else []) ++
    [ShutdownStep.close_socket]

end PN532Controller

namespace PageNavigationController

/-- Action trace of PageNavigationController.stop_monitoring. -/
def stop_monitoring_trace (clf_open : Bool) : List ShutdownStep :=
  [ShutdownStep.set_running_false] ++ (if clf_open then [ShutdownStep.close_clf] else [])

/-- Action trace of PageNavigationController.cleanup: stop_monitoring,
then close the UDP socket, then save the mappings. -/
def cleanup_trace (clf_open : Bool) : List ShutdownStep :=
  stop_monitoring_trace clf_open ++ [ShutdownStep.close_socket, ShutdownStep.save_store]

end PageNavigationController

/-- Whether a shutdown trace flushes the mapping store before releasing
the serial or NFC channel: true when a save_store step precedes every
channel close, and when no channel close occurs; false when a channel
close occurs with no earlier save_store. -/
def flushed_before_release (tr : List ShutdownStep) : Bool :=
  match tr.findIdx? (fun e => e == ShutdownStep.save_store),
        tr.findIdx? (fun e => e == ShutdownStep.close_serial || e == ShutdownStep.close_clf) with
  | some i, some j => decide (i < j)
  | _, none => true
  | none, some _ => false

/-- Forward-to-reverse consistency of a navigation controller state: keys
of both indices are unique, and every page of the forward index resolves
back to itself through the reverse index. -/
def nav_inv (s : PageNavigationController.State) : Prop :=
  (dkeys s.page_mappings).Nodup ∧ (dkeys s.reverse_mappings).Nodup ∧
    ∀ p u, dlookup p s.page_mappings = some u → dlookup u s.reverse_mappings = some p

/-- Number of navigation events carried by one step result. -/
def emit_count (e : Option Nat) : Nat :=
  match e with
  | some _ => 1
  | none => 0

/-- Example handler state exercising the specific arbitration strategy:
the reverse index maps uid 01 to page 2. -/
def specific_example_state : MultiTagHandler.State :=
  { MultiTagHandler.init none 8890 3 with
      tag_priority_strategy := "specific",
      base := { (MultiTagHandler.init none 8890 3).base with
        reverse_mappings := [("01", 2)] } }

/-- Example detected tags: one mapped tag (uid 01, sens_res 0x44) and one
unmapped tag (uid 02, sens_res 0x20). -/
def specific_example_tags : List MultiTagHandler.MTagInfo :=
  [{ tag_number := 1, sens_res := 0x44, sel_res := 8, uid := [1], detection_time := 0,
      signal_strength := "strong" },
    { tag_number := 2, sens_res := 0x20, sel_res := 8, uid := [2], detection_time := 0,
      signal_strength := "weak" }]

/-- Folding addition over a list starting from an accumulator equals the
accumulator plus the list sum. -/
theorem foldl_add_eq_sum (l : List Nat) (a : Nat) :
    l.foldl (fun x y => x + y) a = a + l.sum := by
  induction l generalizing a with
  | nil => simp
  | cons h t ih => simp [List.foldl_cons, ih, List.sum_cons]; omega

/-- Claim C1: the frame codec round-trip fails in the code. read_response
consumes the direction byte inside its six byte header read, yet still
demands length + 2 further bytes although only length + 1 remain in an
exactly encoded frame, so decoding the encoder output returns none instead
of the payload. Shown here at the concrete payload [0x02] (the
get-firmware-version command). -/
theorem C1_roundtrip_fails_at_02 :
    PN532Controller.read_response (PN532Controller.build_command [0x02]) = none := by
  decide

/-- Claim C9: build_command produces exactly the wire format
00 00 FF LEN LCS D4 payload DCS 00 with LEN = len(payload) + 1,
LCS = two's-complement of LEN mod 256, and DCS = two's-complement of
(0xD4 + sum(payload)) mod 256. -/
theorem C9_encode_wire_format (p : List Nat) (h1 : p.length + 1 ≤ 255)
    (h2 : ∀ b ∈ p, b < 256) :
    PN532Controller.build_command p =
      [0x00, 0x00, 0xFF, p.length + 1, (256 - (p.length + 1) % 256) % 256, 0xD4] ++ p ++
        [(256 - (0xD4 + p.sum) % 256) % 256, 0x00] := by
  simp [PN532Controller.build_command, pyNeg8, foldl_add_eq_sum,
    PN532_PREAMBLE, PN532_STARTCODE1, PN532_STARTCODE2, PN532_POSTAMBLE]

/-- Claim C9 witness: the wire format theorem applied to the concrete
payload [0x4A, 0x02, 0x00] (the detect-passive-target command). -/
theorem C9_encode_wire_format_witness :
    ([0x4A, 0x02, 0x00] : List Nat).length + 1 ≤ 255 ∧
      PN532Controller.build_command [0x4A, 0x02, 0x00] =
        [0x00, 0x00, 0xFF, 4, 252, 0xD4, 0x4A, 0x02, 0x00, 224, 0x00] :=
  ⟨by decide, C9_encode_wire_format [0x4A, 0x02, 0x00] (by decide) (by decide)⟩

/-! Dictionary lemmas. -/

theorem dlookup_dinsert_self {α β : Type} [DecidableEq α] (k : α) (v : β) (l : List (α × β)) :
    dlookup k (dinsert k v l) = some v := by
  induction l with
  | nil => simp [dinsert, dlookup]
  | cons hd t ih =>
    obtain ⟨a, b⟩ := hd
    by_cases hk : a = k
    · simp [dinsert, dlookup, hk]
    · simp [dinsert, dlookup, hk, ih]

theorem dlookup_dinsert_ne {α β : Type} [DecidableEq α] (k k' : α) (v : β) (l : List (α × β))
    (h : ¬ k = k') : dlookup k (dinsert k' v l) = dlookup k l := by
  have h' : ¬ k' = k := fun e => h e.symm
  induction l with
  | nil => simp [dinsert, dlookup, h']
  | cons hd t ih =>
    obtain ⟨a, b⟩ := hd
    by_cases hk : a = k'
    · subst hk
      simp [dinsert, dlookup, h']
    · by_cases hak : a = k <;> simp [dinsert, dlookup, hk, hak, ih, h]

theorem dlookup_derase_ne {α β : Type} [DecidableEq α] (k k' : α) (l : List (α × β))
    (h : ¬ k = k') : dlookup k (derase k' l) = dlookup k l := by
  induction l with
  | nil => simp [derase]
  | cons hd t ih =>
    obtain ⟨a, b⟩ := hd
    by_cases hk : a = k'
    · subst hk
      have h' : ¬ a = k := fun e => h e.symm
      simp [derase, dlookup, h']
    · by_cases hak : a = k <;> simp [derase, dlookup, hk, hak, ih, h]

theorem dlookup_eq_none_of_not_mem_keys {α β : Type} [DecidableEq α] (k : α) (l : List (α × β))
    (h : ¬ k ∈ dkeys l) : dlookup k l = none := by
  induction l with
  | nil => simp [dlookup]
  | cons hd t ih =>
    obtain ⟨a, b⟩ := hd
    simp [dkeys] at h
    have hak : ¬ a = k := fun e => h.1 e.symm
    simp [dlookup, hak]
    exact ih (by simpa [dkeys] using h.2)

theorem dlookup_derase_self {α β : Type} [DecidableEq α] (k : α) (l : List (α × β))
    (h : (dkeys l).Nodup) : dlookup k (derase k l) = none := by
  induction l with
  | nil => simp [derase, dlookup]
  | cons hd t ih =>
    obtain ⟨a, b⟩ := hd
    simp [dkeys] at h
    by_cases hk : a = k
    · subst hk
      simp [derase]
      exact dlookup_eq_none_of_not_mem_keys a t (by simpa [dkeys] using h.1)
    · simp [derase, dlookup, hk]
      exact ih h.2

theorem mem_of_dlookup {α β : Type} [DecidableEq α] {k : α} {v : β} {l : List (α × β)}
    (h : dlookup k l = some v) : (k, v) ∈ l := by
  induction l with
  | nil => simp [dlookup] at h
  | cons hd t ih =>
    obtain ⟨a, b⟩ := hd
    by_cases hk : a = k
    · subst hk
      simp [dlookup] at h
      simp [h]
    · simp [dlookup, hk] at h
      exact List.mem_cons_of_mem _ (ih h)

theorem dlookup_of_mem {α β : Type} [DecidableEq α] {k : α} {v : β} {l : List (α × β)}
    (hnd : (dkeys l).Nodup) (h : (k, v) ∈ l) : dlookup k l = some v := by
  induction l with
  | nil => simp at h
  | cons hd t ih =>
    obtain ⟨a, b⟩ := hd
    simp [dkeys] at hnd
    rcases List.mem_cons.mp h with heq | hmem
    · cases heq
      simp [dlookup]
    · by_cases hk : a = k
      · subst hk
        exact absurd hmem (hnd.1 v)
      · simp [dlookup, hk]
        exact ih hnd.2 hmem

theorem mem_keys_dinsert {α β : Type} [DecidableEq α] (x k : α) (v : β) (l : List (α × β)) :
    x ∈ dkeys (dinsert k v l) ↔ x = k ∨ x ∈ dkeys l := by
  induction l with
  | nil => simp [dinsert, dkeys]
  | cons hd t ih =>
    obtain ⟨a, b⟩ := hd
    by_cases hk : a = k
    · subst hk
      simp [dinsert, dkeys]
      try tauto
    · simp [dinsert, dkeys, hk] at ih ⊢
      try tauto

theorem nodup_keys_dinsert {α β : Type} [DecidableEq α] (k : α) (v : β) (l : List (α × β))
    (h : (dkeys l).Nodup) : (dkeys (dinsert k v l)).Nodup := by
  induction l with
  | nil => simp [dinsert, dkeys]
  | cons hd t ih =>
    obtain ⟨a, b⟩ := hd
    simp [dkeys] at h
    by_cases hk : a = k
    · subst hk
      simpa [dinsert, dkeys] using h
    · have ha : ¬ a ∈ dkeys (dinsert k v t) := by
        rw [mem_keys_dinsert]
        push_neg
        exact ⟨hk, by simpa [dkeys] using h.1⟩
      simp [dinsert, dkeys, hk] at ha ⊢
      exact ⟨by simpa [dkeys] using ha, by simpa [dkeys] using ih h.2⟩

theorem derase_sublist {α β : Type} [DecidableEq α] (k : α) (l : List (α × β)) :
    (derase k l).Sublist l := by
  induction l with
  | nil => simp [derase]
  | cons hd t ih =>
    obtain ⟨a, b⟩ := hd
    by_cases hk : a = k
    · simp only [derase, if_pos hk]
      exact List.Sublist.cons _ (List.Sublist.refl t)
    · simp only [derase, if_neg hk]
      exact List.Sublist.cons₂ _ ih

theorem nodup_keys_derase {α β : Type} [DecidableEq α] (k : α) (l : List (α × β))
    (h : (dkeys l).Nodup) : (dkeys (derase k l)).Nodup :=
  List.Nodup.sublist (List.Sublist.map Prod.fst (derase_sublist k l)) h

/-! Mapping-store invariant development for claim C2. -/

theorem nav_inv_add (s : PageNavigationController.State) (p : Nat) (u : String)
    (hg : PageNavigationController.good_op s (PageNavigationController.MapOp.add p u) = true)
    (h : nav_inv s) : nav_inv (PageNavigationController.add_page_mapping p u s) := by
  obtain ⟨hf, hr, hinv⟩ := h
  unfold nav_inv PageNavigationController.add_page_mapping PageNavigationController.save_mappings
  by_cases hrange : 1 ≤ p ∧ p ≤ s.total_pages
  · rw [if_pos hrange]
    refine ⟨nodup_keys_dinsert p u _ hf, nodup_keys_dinsert u p _ hr, ?_⟩
    intro q w hq
    by_cases hqp : q = p
    · subst hqp
      rw [dlookup_dinsert_self] at hq
      cases hq
      exact dlookup_dinsert_self _ _ _
    · rw [dlookup_dinsert_ne q p u _ hqp] at hq
      by_cases hwu : w = u
      · subst hwu
        exfalso
        have hq' := hinv q w hq
        unfold PageNavigationController.good_op at hg
        simp [hq'] at hg
        exact hqp hg
      · rw [dlookup_dinsert_ne w u p _ hwu]
        exact hinv q w hq
  · rw [if_neg hrange]
    exact ⟨hf, hr, hinv⟩

theorem nav_inv_remove (s : PageNavigationController.State) (p : Nat) (h : nav_inv s) :
    nav_inv (PageNavigationController.remove_page_mapping p s) := by
  obtain ⟨hf, hr, hinv⟩ := h
  unfold nav_inv PageNavigationController.remove_page_mapping PageNavigationController.save_mappings
  cases hfp : dlookup p s.page_mappings with
  | none => exact ⟨hf, hr, hinv⟩
  | some u =>
    have hru : dlookup u s.reverse_mappings = some p := hinv p u hfp
    simp only [hru, Option.isSome_some, if_pos]
    refine ⟨nodup_keys_derase p _ hf, nodup_keys_derase u _ hr, ?_⟩
    intro q w hq
    by_cases hqp : q = p
    · subst hqp
      rw [dlookup_derase_self q _ hf] at hq
      cases hq
    · rw [dlookup_derase_ne q p _ hqp] at hq
      by_cases hwu : w = u
      · subst hwu
        exact absurd ((hinv q w hq).symm.trans hru) (fun e => hqp (Option.some.inj e))
      · rw [dlookup_derase_ne w u _ hwu]
        exact hinv q w hq

theorem nav_inv_run (ops : List PageNavigationController.MapOp) :
    ∀ s, nav_inv s → PageNavigationController.good_seq s ops = true →
      nav_inv (PageNavigationController.run_ops s ops) := by
  induction ops with
  | nil =>
    intro s h _
    simpa [PageNavigationController.run_ops] using h
  | cons op t ih =>
    intro s h hg
    rw [PageNavigationController.good_seq, Bool.and_eq_true] at hg
    have h1 : nav_inv (PageNavigationController.apply_op s op) := by
      cases op with
      | add p u => exact nav_inv_add s p u hg.1 h
      | remove p => exact nav_inv_remove s p h
    simpa [PageNavigationController.run_ops, List.foldl_cons] using ih _ h1 hg.2

theorem dlookup_foldl_dinsert_of_not_value (l : List (Nat × String)) (u : String) :
    ∀ acc, (∀ kv ∈ l, ¬ kv.2 = u) →
      dlookup u (l.foldl (fun a kv => dinsert kv.2 kv.1 a) acc) = dlookup u acc := by
  induction l with
  | nil => intro acc _; simp
  | cons kv t ih =>
    intro acc h
    simp only [List.foldl_cons]
    rw [ih _ (fun x hx => h x (List.mem_cons_of_mem _ hx))]
    exact dlookup_dinsert_ne u kv.2 kv.1 acc (fun e => h kv (List.mem_cons_self _ _) e.symm)

theorem dlookup_foldl_dinsert_mem (l : List (Nat × String)) (p : Nat) (u : String) :
    ∀ acc, (p, u) ∈ l → (∀ kv ∈ l, kv.2 = u → kv.1 = p) →
      dlookup u (l.foldl (fun a kv => dinsert kv.2 kv.1 a) acc) = some p := by
  induction l with
  | nil =>
    intro acc hmem _
    cases hmem
  | cons kv t ih =>
    intro acc hmem huniq
    simp only [List.foldl_cons]
    by_cases hmem' : (p, u) ∈ t
    · exact ih _ hmem' (fun x hx => huniq x (List.mem_cons_of_mem _ hx))
    · have hkv : kv = (p, u) := by
        rcases List.mem_cons.mp hmem with he | ht
        · exact he.symm
        · exact absurd ht hmem'
      subst hkv
      rw [dlookup_foldl_dinsert_of_not_value t u _ ?hnv]
      · exact dlookup_dinsert_self u p acc
      case hnv =>
        intro x hx he
        have hx1 : x.1 = p := huniq x (List.mem_cons_of_mem _ hx) he
        have hxe : x = (p, u) := by
          obtain ⟨x1, x2⟩ := x
          simp at hx1 he
          rw [hx1, he]
        exact hmem' (hxe ▸ hx)

theorem nav_inv_save_load (s : PageNavigationController.State) (h : nav_inv s) :
    ∀ p u,
      dlookup p (PageNavigationController.load_mappings
        (PageNavigationController.save_mappings s)).page_mappings = some u →
      dlookup u (PageNavigationController.load_mappings
        (PageNavigationController.save_mappings s)).reverse_mappings = some p := by
  intro p u hp
  obtain ⟨hf, _, hinv⟩ := h
  simp only [PageNavigationController.load_mappings, PageNavigationController.save_mappings] at hp ⊢
  have hp' : dlookup p s.page_mappings = some u := hp
  show dlookup u (PageNavigationController.build_reverse s.page_mappings) = some p
  unfold PageNavigationController.build_reverse
  refine dlookup_foldl_dinsert_mem s.page_mappings p u [] (mem_of_dlookup hp') ?_
  intro kv hkv he
  obtain ⟨k1, k2⟩ := kv
  have he' : k2 = u := he
  subst he'
  have hl : dlookup k1 s.page_mappings = some k2 := dlookup_of_mem hf hkv
  have h1 := hinv k1 k2 hl
  have h2 := hinv p k2 hp'
  exact Option.some.inj (h1.symm.trans h2)

/-- Claim C2 counterexample: after the operation sequence add(1, a),
add(2, a) the forward index still maps page 1 to uid a, but the reverse
lookup of a returns page 2, not 1 — re-adding a mapped uid under another
page silently orphans the first forward entry. -/
theorem C2_counterexample :
    dlookup 1 (PageNavigationController.run_ops
      (PageNavigationController.init "127.0.0.1" 8890 10)
      [PageNavigationController.MapOp.add 1 "a",
        PageNavigationController.MapOp.add 2 "a"]).page_mappings = some "a" ∧
    dlookup "a" (PageNavigationController.run_ops
      (PageNavigationController.init "127.0.0.1" 8890 10)
      [PageNavigationController.MapOp.add 1 "a",
        PageNavigationController.MapOp.add 2 "a"]).reverse_mappings = some 2 := by
  decide

/-- Claim C2 (amended): after every finite sequence of add and remove
operations in which each add concerns a uid that is currently unmapped or
already mapped to that same page, every page p present in the forward
index with uid u satisfies resolve(u) = p, and the property still holds
after a save followed by a load. -/
theorem C2_mapping_bijectivity_amended (udp_host : String) (udp_port total_pages : Nat)
    (ops : List PageNavigationController.MapOp)
    (hg : PageNavigationController.good_seq
      (PageNavigationController.init udp_host udp_port total_pages) ops = true) :
    (∀ p u,
      dlookup p (PageNavigationController.run_ops
        (PageNavigationController.init udp_host udp_port total_pages) ops).page_mappings
        = some u →
      dlookup u (PageNavigationController.run_ops
        (PageNavigationController.init udp_host udp_port total_pages) ops).reverse_mappings
        = some p) ∧
    (∀ p u,
      dlookup p (PageNavigationController.load_mappings
        (PageNavigationController.save_mappings (PageNavigationController.run_ops
          (PageNavigationController.init udp_host udp_port total_pages) ops))).page_mappings
        = some u →
      dlookup u (PageNavigationController.load_mappings
        (PageNavigationController.save_mappings (PageNavigationController.run_ops
          (PageNavigationController.init udp_host udp_port total_pages) ops))).reverse_mappings
        = some p) := by
  have h0 : nav_inv (PageNavigationController.init udp_host udp_port total_pages) := by
    refine ⟨List.nodup_nil, List.nodup_nil, ?_⟩
    intro p u hp
    exact Option.noConfusion hp
  have hinv := nav_inv_run ops _ h0 hg
  exact ⟨hinv.2.2, nav_inv_save_load _ hinv⟩

/-- Claim C2 witness: the amended bijectivity theorem applied to the
concrete benign sequence add(1, a), remove(1), add(1, b), add(2, c) on a
ten page store. -/
theorem C2_mapping_bijectivity_witness :
    (∀ p u,
      dlookup p (PageNavigationController.run_ops
        (PageNavigationController.init "127.0.0.1" 8890 10)
        [PageNavigationController.MapOp.add 1 "a", PageNavigationController.MapOp.remove 1,
          PageNavigationController.MapOp.add 1 "b",
          PageNavigationController.MapOp.add 2 "c"]).page_mappings = some u →
      dlookup u (PageNavigationController.run_ops
        (PageNavigationController.init "127.0.0.1" 8890 10)
        [PageNavigationController.MapOp.add 1 "a", PageNavigationController.MapOp.remove 1,
          PageNavigationController.MapOp.add 1 "b",
          PageNavigationController.MapOp.add 2 "c"]).reverse_mappings = some p) ∧
    (∀ p u,
      dlookup p (PageNavigationController.load_mappings
        (PageNavigationController.save_mappings (PageNavigationController.run_ops
          (PageNavigationController.init "127.0.0.1" 8890 10)
          [PageNavigationController.MapOp.add 1 "a", PageNavigationController.MapOp.remove 1,
            PageNavigationController.MapOp.add 1 "b",
            PageNavigationController.MapOp.add 2 "c"]))).page_mappings = some u →
      dlookup u (PageNavigationController.load_mappings
        (PageNavigationController.save_mappings (PageNavigationController.run_ops
          (PageNavigationController.init "127.0.0.1" 8890 10)
          [PageNavigationController.MapOp.add 1 "a", PageNavigationController.MapOp.remove 1,
            PageNavigationController.MapOp.add 1 "b",
            PageNavigationController.MapOp.add 2 "c"]))).reverse_mappings = some p) :=
  C2_mapping_bijectivity_amended "127.0.0.1" 8890 10
    [PageNavigationController.MapOp.add 1 "a", PageNavigationController.MapOp.remove 1,
      PageNavigationController.MapOp.add 1 "b", PageNavigationController.MapOp.add 2 "c"]
    (by decide)

/-! Learning state machine development for claim C5. -/

theorem learn_step_nav (s : PageNavigationController.State) (u : String)
    (hc1 : 1 ≤ s.current_learning_page) (hcN : s.current_learning_page ≤ s.total_pages) :
    (PageNavigationController.learn_page_mapping u s).total_pages = s.total_pages ∧
    (PageNavigationController.learn_page_mapping u s).current_learning_page
      = s.current_learning_page + 1 ∧
    (PageNavigationController.learn_page_mapping u s).learning_mode
      = (if s.current_learning_page + 1 ≤ s.total_pages then s.learning_mode else false) ∧
    (PageNavigationController.learn_page_mapping u s).page_mappings
      = dinsert s.current_learning_page u s.page_mappings := by
  unfold PageNavigationController.learn_page_mapping PageNavigationController.add_page_mapping
    PageNavigationController.save_mappings PageNavigationController.stop_learning_mode
  by_cases h2 : s.current_learning_page + 1 ≤ s.total_pages <;>
    simp [hcN, hc1, h2]

theorem learn_fold_nav (us : List String) :
    ∀ s : PageNavigationController.State, s.learning_mode = true →
      1 ≤ s.current_learning_page →
      s.current_learning_page + us.length = s.total_pages + 1 →
      ((us.foldl (fun st u => PageNavigationController.learn_page_mapping u st) s).learning_mode
        = us.isEmpty) ∧
      ((us.foldl (fun st u => PageNavigationController.learn_page_mapping u st) s).total_pages
        = s.total_pages) ∧
      ∀ i, dlookup i
          (us.foldl (fun st u => PageNavigationController.learn_page_mapping u st) s).page_mappings
        = if s.current_learning_page ≤ i ∧ i ≤ s.total_pages
          then some (us.getD (i - s.current_learning_page) "")
          else dlookup i s.page_mappings := by
  induction us with
  | nil =>
    intro s h1 hc hlen
    simp only [List.length_nil, Nat.add_zero] at hlen
    refine ⟨h1, rfl, ?_⟩
    intro i
    rw [if_neg (fun hi => by omega)]
    rfl
  | cons u t ih =>
    intro s h1 hc hlen
    simp only [List.length_cons] at hlen
    simp only [List.foldl_cons]
    have hcN : s.current_learning_page ≤ s.total_pages := by omega
    obtain ⟨ht, hcur, hlearn, hfwd⟩ := learn_step_nav s u hc hcN
    by_cases hte : t = []
    · subst hte
      simp only [List.length_nil] at hlen
      simp only [List.foldl_nil]
      refine ⟨?_, ht, ?_⟩
      · rw [hlearn, if_neg (by omega)]
        rfl
      · intro i
        rw [hfwd]
        by_cases hi : s.current_learning_page ≤ i ∧ i ≤ s.total_pages
        · rw [if_pos hi]
          have hic : i = s.current_learning_page := by omega
          subst hic
          rw [dlookup_dinsert_self]
          simp
        · rw [if_neg hi]
          have hic : ¬ i = s.current_learning_page := fun e => hi ⟨by omega, by omega⟩
          exact dlookup_dinsert_ne i _ u _ hic
    · have htlen : 1 ≤ t.length := by
        cases t with
        | nil => exact absurd rfl hte
        | cons a b => simp
      have hles : s.current_learning_page + 1 ≤ s.total_pages := by omega
      have hlearn' : (PageNavigationController.learn_page_mapping u s).learning_mode = true := by
        rw [hlearn, if_pos hles, h1]
      have hc' : 1 ≤ (PageNavigationController.learn_page_mapping u s).current_learning_page := by
        rw [hcur]; omega
      have hlen' : (PageNavigationController.learn_page_mapping u s).current_learning_page
          + t.length = (PageNavigationController.learn_page_mapping u s).total_pages + 1 := by
        rw [hcur, ht]; omega
      obtain ⟨ihl, iht, ihm⟩ := ih _ hlearn' hc' hlen'
      refine ⟨?_, by rw [iht, ht], ?_⟩
      · rw [ihl]
        cases t with
        | nil => exact absurd rfl hte
        | cons a b => rfl
      · intro i
        rw [ihm i, hfwd, hcur, ht]
        by_cases hB : s.current_learning_page + 1 ≤ i ∧ i ≤ s.total_pages
        · rw [if_pos hB, if_pos (⟨by omega, hB.2⟩ : s.current_learning_page ≤ i ∧
            i ≤ s.total_pages)]
          have hsub : i - s.current_learning_page = (i - (s.current_learning_page + 1)) + 1 := by
            omega
          rw [hsub]
          rfl
        · rw [if_neg hB]
          by_cases hA : s.current_learning_page ≤ i ∧ i ≤ s.total_pages
          · rw [if_pos hA]
            have hic : i = s.current_learning_page := by omega
            subst hic
            rw [dlookup_dinsert_self]
            simp
          · rw [if_neg hA]
            have hic : ¬ i = s.current_learning_page := fun e => hA ⟨by omega, by omega⟩
            exact dlookup_dinsert_ne i _ u _ hic

/-- Claim C5: starting learning mode with total_pages = N (current learning
page reset to 1) and feeding N detections with pairwise distinct uids
produces exactly the mappings of pages 1..N to those uids in presentation
order, and the learning flag automatically returns to false after the N-th
detection. -/
theorem C5_learning_completion (N : Nat) (us : List String) (hN : 1 ≤ N)
    (hlen : us.length = N) (hnd : us.Nodup) :
    ((us.foldl (fun st u => PageNavigationController.learn_page_mapping u st)
      (PageNavigationController.start_learning_mode
        (PageNavigationController.init "127.0.0.1" 8890 N))).learning_mode = false) ∧
    (∀ i, 1 ≤ i → i ≤ N →
      dlookup i (us.foldl (fun st u => PageNavigationController.learn_page_mapping u st)
        (PageNavigationController.start_learning_mode
          (PageNavigationController.init "127.0.0.1" 8890 N))).page_mappings
        = some (us.getD (i - 1) "")) ∧
    (∀ i, ¬ (1 ≤ i ∧ i ≤ N) →
      dlookup i (us.foldl (fun st u => PageNavigationController.learn_page_mapping u st)
        (PageNavigationController.start_learning_mode
          (PageNavigationController.init "127.0.0.1" 8890 N))).page_mappings = none) := by
  obtain ⟨hl, htp, hm⟩ := learn_fold_nav us
    (PageNavigationController.start_learning_mode
      (PageNavigationController.init "127.0.0.1" 8890 N))
    rfl (Nat.le_refl 1)
    (by
      simp only [PageNavigationController.start_learning_mode, PageNavigationController.init,
        hlen]
      omega)
  have hne : us.isEmpty = false := by
    cases us with
    | nil =>
      rw [List.length_nil] at hlen
      omega
    | cons a t => rfl
  refine ⟨by rw [hl, hne], ?_, ?_⟩
  · intro i h1 h2
    rw [hm i, if_pos (⟨h1, h2⟩ :
      (PageNavigationController.start_learning_mode
        (PageNavigationController.init "127.0.0.1" 8890 N)).current_learning_page ≤ i ∧
        i ≤ (PageNavigationController.start_learning_mode
          (PageNavigationController.init "127.0.0.1" 8890 N)).total_pages)]
    rfl
  · intro i hi
    rw [hm i, if_neg (fun hc => hi ⟨hc.1, hc.2⟩)]
    rfl

/-- Claim C5 witness: learning completion applied to total_pages 2 with the
distinct uids a, b. -/
theorem C5_learning_completion_witness :
    1 ≤ 2 ∧ (["a", "b"] : List String).Nodup ∧
    ((["a", "b"].foldl (fun st u => PageNavigationController.learn_page_mapping u st)
      (PageNavigationController.start_learning_mode
        (PageNavigationController.init "127.0.0.1" 8890 2))).learning_mode = false) ∧
    dlookup 1 (["a", "b"].foldl (fun st u => PageNavigationController.learn_page_mapping u st)
      (PageNavigationController.start_learning_mode
        (PageNavigationController.init "127.0.0.1" 8890 2))).page_mappings = some "a" ∧
    dlookup 2 (["a", "b"].foldl (fun st u => PageNavigationController.learn_page_mapping u st)
      (PageNavigationController.start_learning_mode
        (PageNavigationController.init "127.0.0.1" 8890 2))).page_mappings = some "b" := by
  refine ⟨by decide, by decide, ?_, ?_, ?_⟩
  · exact (C5_learning_completion 2 ["a", "b"] (by decide) rfl (by decide)).1
  · exact (C5_learning_completion 2 ["a", "b"] (by decide) rfl (by decide)).2.1 1
      (by decide) (by decide)
  · exact (C5_learning_completion 2 ["a", "b"] (by decide) rfl (by decide)).2.1 2
      (by decide) (by decide)

/-- Claim C6 counterexample: PN532Controller.add_page_mapping accepts the
in-range pair (3, ab) and updates the in-memory forward index, yet the
durable store is left untouched — nothing is persisted synchronously or at
all by this class. -/
theorem C6_counterexample :
    dlookup 3 (PN532Controller.add_page_mapping 3 "ab"
      (PN532Controller.init none 115200 8890 10)).page_mappings = some "ab" ∧
    (PN532Controller.add_page_mapping 3 "ab"
      (PN532Controller.init none 115200 8890 10)).saved_file = none := by
  decide

/-- Claim C6 (amended): for every page and uid, an out-of-range page is
rejected by both add implementations with no state change; an in-range add
inserts or overwrites the pair in both indices in both implementations;
PageNavigationController.add_page_mapping additionally persists the
updated store synchronously, while PN532Controller.add_page_mapping never
touches durable storage. -/
theorem C6_add_contract_amended (page : Nat) (uid : String)
    (sN : PageNavigationController.State) (s5 : PN532Controller.State) :
    (¬ (1 ≤ page ∧ page ≤ sN.total_pages) →
      PageNavigationController.add_page_mapping page uid sN = sN) ∧
    ((1 ≤ page ∧ page ≤ sN.total_pages) →
      (PageNavigationController.add_page_mapping page uid sN).page_mappings
          = dinsert page uid sN.page_mappings ∧
        (PageNavigationController.add_page_mapping page uid sN).reverse_mappings
          = dinsert uid page sN.reverse_mappings ∧
        (PageNavigationController.add_page_mapping page uid sN).saved_file
          = some (dinsert page uid sN.page_mappings, sN.total_pages)) ∧
    (¬ (1 ≤ page ∧ page ≤ s5.total_pages) →
      PN532Controller.add_page_mapping page uid s5 = s5) ∧
    ((1 ≤ page ∧ page ≤ s5.total_pages) →
      (PN532Controller.add_page_mapping page uid s5).page_mappings
          = dinsert page uid s5.page_mappings ∧
        (PN532Controller.add_page_mapping page uid s5).reverse_mappings
          = dinsert uid page s5.reverse_mappings) ∧
    (PN532Controller.add_page_mapping page uid s5).saved_file = s5.saved_file := by
  unfold PageNavigationController.add_page_mapping PN532Controller.add_page_mapping
    PageNavigationController.save_mappings
  refine ⟨fun h => by rw [if_neg h], fun h => by rw [if_pos h]; exact ⟨rfl, rfl, rfl⟩,
    fun h => by rw [if_neg h], fun h => by rw [if_pos h]; exact ⟨rfl, rfl⟩, ?_⟩
  by_cases h : 1 ≤ page ∧ page ≤ s5.total_pages
  · rw [if_pos h]
  · rw [if_neg h]

/-- Claim C6 witness: the amended add contract applied at page 3, uid ab on
freshly initialized controllers with ten pages. -/
theorem C6_add_contract_witness :
    (1 ≤ 3 ∧ 3 ≤ (PageNavigationController.init "127.0.0.1" 8890 10).total_pages) ∧
    (PageNavigationController.add_page_mapping 3 "ab"
      (PageNavigationController.init "127.0.0.1" 8890 10)).saved_file
      = some (dinsert 3 "ab" (PageNavigationController.init "127.0.0.1" 8890 10).page_mappings,
          (PageNavigationController.init "127.0.0.1" 8890 10).total_pages) ∧
    (PN532Controller.add_page_mapping 3 "ab"
      (PN532Controller.init none 115200 8890 10)).saved_file
      = (PN532Controller.init none 115200 8890 10).saved_file := by
  refine ⟨by decide, ?_, ?_⟩
  · exact ((C6_add_contract_amended 3 "ab" (PageNavigationController.init "127.0.0.1" 8890 10)
      (PN532Controller.init none 115200 8890 10)).2.1 (by decide)).2.2
  · exact (C6_add_contract_amended 3 "ab" (PageNavigationController.init "127.0.0.1" 8890 10)
      (PN532Controller.init none 115200 8890 10)).2.2.2.2

/-- Claim C8 counterexample: in the cleanup shutdown path the NFC channel
is closed first and the mapping store is saved last, and the PN532
controller shutdown path closes the serial channel without any save, so
neither path flushes the store before releasing the channel. -/
theorem C8_counterexample :
    PageNavigationController.cleanup_trace true =
      [ShutdownStep.set_running_false, ShutdownStep.close_clf, ShutdownStep.close_socket,
        ShutdownStep.save_store] ∧
    flushed_before_release (PageNavigationController.cleanup_trace true) = false ∧
    flushed_before_release (PN532Controller.stop_monitoring_trace true) = false := by
  decide

/-- Claim C8 (amended): the PageNavigationController cleanup path does
flush the mapping store, but as its final action, after the NFC channel
and the UDP socket are released; the PN532Controller shutdown path never
flushes the store. -/
theorem C8_shutdown_flush_amended (clf_open serial_conn_open : Bool) :
    (PageNavigationController.cleanup_trace clf_open).getLast?
        = some ShutdownStep.save_store ∧
    ¬ ShutdownStep.save_store ∈ PageNavigationController.stop_monitoring_trace clf_open ∧
    ¬ ShutdownStep.save_store ∈ PN532Controller.stop_monitoring_trace serial_conn_open := by
  cases clf_open <;> cases serial_conn_open <;> decide

/-- Claim C10: MultiTagHandler.__init__(port, udp_port, total_pages) calls
the base constructor positionally, so the resulting state has
baudrate = udp_port, udp_port = total_pages and total_pages = 10, and the
UDP destination used for navigation events is the requested total_pages,
never the requested udp_port. -/
theorem C10_positional_super_call (port : Option String) (u n : Nat) :
    (MultiTagHandler.init port u n).base.baudrate = u ∧
    (MultiTagHandler.init port u n).base.udp_port = n ∧
    (MultiTagHandler.init port u n).base.total_pages = 10 ∧
    PN532Controller.navigation_dest_port (MultiTagHandler.init port u n).base = n :=
  ⟨rfl, rfl, rfl, rfl⟩

/-! Multi-tag parsing equivalence for claim C3. -/

theorem parse_tags_loop_eq_spec (response : List Nat) (t : ℚ) :
    ∀ n offset, MultiTagHandler.parse_tags_loop response t n offset
      = spec_contained_loop response t n offset := by
  intro n
  induction n with
  | zero => intro offset; rfl
  | succ n ih =>
    intro offset
    by_cases h1 : offset ≥ response.length
    · simp only [MultiTagHandler.parse_tags_loop, spec_contained_loop]
      rw [if_pos h1, if_neg (fun hc => by omega)]
    · by_cases h5 : offset + 5 ≤ response.length
      · have e0 : response[offset]? = some (response.getD offset 0) := by
          rw [List.getElem?_eq_getElem (by omega), List.getD_eq_getElem response 0 (by omega)]
        have e1 : response[offset + 1]? = some (response.getD (offset + 1) 0) := by
          rw [List.getElem?_eq_getElem (by omega), List.getD_eq_getElem response 0 (by omega)]
        have e2 : response[offset + 2]? = some (response.getD (offset + 2) 0) := by
          rw [List.getElem?_eq_getElem (by omega), List.getD_eq_getElem response 0 (by omega)]
        have e3 : response[offset + 3]? = some (response.getD (offset + 3) 0) := by
          rw [List.getElem?_eq_getElem (by omega), List.getD_eq_getElem response 0 (by omega)]
        have e4 : response[offset + 4]? = some (response.getD (offset + 4) 0) := by
          rw [List.getElem?_eq_getElem (by omega), List.getD_eq_getElem response 0 (by omega)]
        simp only [MultiTagHandler.parse_tags_loop, spec_contained_loop]
        rw [if_neg h1, e0, e1, e2, e3, e4]
        dsimp only
        by_cases h6 : offset + 5 + response.getD (offset + 4) 0 > response.length
        · rw [if_pos h6, if_neg (fun hc => by omega)]
        · rw [if_neg h6, if_pos ⟨h5, by omega⟩, ih]
      · have e4 : response[offset + 4]? = none := List.getElem?_eq_none (by omega)
        simp only [MultiTagHandler.parse_tags_loop, spec_contained_loop]
        rw [if_neg h1, e4, if_neg (fun hc => by omega)]
        rcases e0 : response[offset]? with _ | v0 <;>
          rcases e1 : response[offset + 1]? with _ | v1 <;>
            rcases e2 : response[offset + 2]? with _ | v2 <;>
              rcases e3 : response[offset + 3]? with _ | v3 <;> rfl

/-- Claim C3: for every multi-tag response buffer, detect_multiple_tags
returns exactly the fully contained records before the truncation point,
up to the declared target count, advancing by each record's exact declared
size; the parse is total (every Python IndexError is caught by the inner
handler and turns into a break), so it never raises. A failed read (none)
yields the empty list. -/
theorem C3_partial_record_robustness (r : List Nat) (t : ℚ) :
    MultiTagHandler.detect_multiple_tags (some r) t = spec_detect_multiple r t ∧
    MultiTagHandler.detect_multiple_tags none t = [] := by
  refine ⟨?_, rfl⟩
  simp only [MultiTagHandler.detect_multiple_tags, spec_detect_multiple]
  by_cases hlen : r.length < 1
  · rw [if_pos hlen, if_pos hlen]
  · rw [if_neg hlen, if_neg hlen]
    by_cases hnum : r.getD 0 0 = 0
    · rw [if_pos hnum, if_pos hnum]
    · rw [if_neg hnum, if_neg hnum]
      exact parse_tags_loop_eq_spec r t _ 1

/-! Arbitration lemmas for claim C7. -/

theorem py_max_fold {α β : Type} [LinearOrder β] (f : α → β) :
    ∀ (l : List α) (acc : α),
      (l.foldl (fun best y => if f best < f y then y else best) acc) ∈ acc :: l ∧
      f acc ≤ f (l.foldl (fun best y => if f best < f y then y else best) acc) ∧
      ∀ y ∈ l, f y ≤ f (l.foldl (fun best y => if f best < f y then y else best) acc) := by
  intro l
  induction l with
  | nil => intro acc; exact ⟨List.mem_singleton_self acc, le_refl _, by simp⟩
  | cons y t ih =>
    intro acc
    simp only [List.foldl_cons]
    obtain ⟨hmem, hle, hall⟩ := ih (if f acc < f y then y else acc)
    have hacc : f acc ≤ f (if f acc < f y then y else acc) := by
      by_cases h : f acc < f y
      · rw [if_pos h]; exact le_of_lt h
      · rw [if_neg h]
    have hy : f y ≤ f (if f acc < f y then y else acc) := by
      by_cases h : f acc < f y
      · rw [if_pos h]
      · rw [if_neg h]; exact le_of_not_lt h
    refine ⟨?_, le_trans hacc hle, ?_⟩
    · rcases List.mem_cons.mp hmem with he | ht
      · rw [he]
        by_cases h : f acc < f y
        · rw [if_pos h]
          exact List.mem_cons_of_mem _ (List.mem_cons_self _ _)
        · rw [if_neg h]
          exact List.mem_cons_self _ _
      · exact List.mem_cons_of_mem _ (List.mem_cons_of_mem _ ht)
    · intro z hz
      rcases List.mem_cons.mp hz with he | ht
      · rw [he]
        exact le_trans hy hle
      · exact hall z ht

theorem py_min_fold {α β : Type} [LinearOrder β] (f : α → β) :
    ∀ (l : List α) (acc : α),
      (l.foldl (fun best y => if f y < f best then y else best) acc) ∈ acc :: l ∧
      f (l.foldl (fun best y => if f y < f best then y else best) acc) ≤ f acc ∧
      ∀ y ∈ l, f (l.foldl (fun best y => if f y < f best then y else best) acc) ≤ f y := by
  intro l
  induction l with
  | nil => intro acc; exact ⟨List.mem_singleton_self acc, le_refl _, by simp⟩
  | cons y t ih =>
    intro acc
    simp only [List.foldl_cons]
    obtain ⟨hmem, hle, hall⟩ := ih (if f y < f acc then y else acc)
    have hacc : f (if f y < f acc then y else acc) ≤ f acc := by
      by_cases h : f y < f acc
      · rw [if_pos h]; exact le_of_lt h
      · rw [if_neg h]
    have hy : f (if f y < f acc then y else acc) ≤ f y := by
      by_cases h : f y < f acc
      · rw [if_pos h]
      · rw [if_neg h]; exact le_of_not_lt h
    refine ⟨?_, le_trans hle hacc, ?_⟩
    · rcases List.mem_cons.mp hmem with he | ht
      · rw [he]
        by_cases h : f y < f acc
        · rw [if_pos h]
          exact List.mem_cons_of_mem _ (List.mem_cons_self _ _)
        · rw [if_neg h]
          exact List.mem_cons_self _ _
      · exact List.mem_cons_of_mem _ (List.mem_cons_of_mem _ ht)
    · intro z hz
      rcases List.mem_cons.mp hz with he | ht
      · rw [he]
        exact le_trans hle hy
      · exact hall z ht

theorem py_max_by_spec {α β : Type} [LinearOrder β] (f : α → β) (l : List α) (hne : ¬ l = []) :
    ∃ w, MultiTagHandler.py_max_by f l = some w ∧ w ∈ l ∧ ∀ y ∈ l, f y ≤ f w := by
  cases l with
  | nil => exact absurd rfl hne
  | cons x t =>
    obtain ⟨hmem, _, hall⟩ := py_max_fold f t x
    refine ⟨_, rfl, hmem, ?_⟩
    intro y hy
    rcases List.mem_cons.mp hy with he | ht
    · rw [he]
      exact (py_max_fold f t x).2.1
    · exact hall y ht

theorem py_min_by_spec {α β : Type} [LinearOrder β] (f : α → β) (l : List α) (hne : ¬ l = []) :
    ∃ w, MultiTagHandler.py_min_by f l = some w ∧ w ∈ l ∧ ∀ y ∈ l, f w ≤ f y := by
  cases l with
  | nil => exact absurd rfl hne
  | cons x t =>
    obtain ⟨hmem, _, hall⟩ := py_min_fold f t x
    refine ⟨_, rfl, hmem, ?_⟩
    intro y hy
    rcases List.mem_cons.mp hy with he | ht
    · rw [he]
      exact (py_min_fold f t x).2.1
    · exact hall y ht

theorem select_by_mapping_priority_spec (s : MultiTagHandler.State)
    (tags : List MultiTagHandler.MTagInfo) (hne : ¬ tags = []) :
    ∃ w, MultiTagHandler.select_by_mapping_priority s tags = some w ∧ w ∈ tags ∧
      ((∃ tg ∈ tags, (dlookup (uidHex tg.uid) s.base.reverse_mappings).isSome = true) →
        ∃ pw, dlookup (uidHex w.uid) s.base.reverse_mappings = some pw ∧
          ∀ tg ∈ tags, ∀ pt, dlookup (uidHex tg.uid) s.base.reverse_mappings = some pt →
            pw ≤ pt) ∧
      ((∀ tg ∈ tags, dlookup (uidHex tg.uid) s.base.reverse_mappings = none) →
        dlookup (uidHex w.uid) s.base.reverse_mappings = none ∧
          ∀ tg ∈ tags, tg.sens_res ≤ w.sens_res) := by
  simp only [MultiTagHandler.select_by_mapping_priority]
  by_cases hm : tags.filter
      (fun tg => (dlookup (uidHex tg.uid) s.base.reverse_mappings).isSome) = []
  · rw [if_neg (fun hc => hc hm)]
    have hnone : ∀ tg ∈ tags, dlookup (uidHex tg.uid) s.base.reverse_mappings = none := by
      intro tg htg
      have := List.filter_eq_nil_iff.mp hm tg htg
      simpa [Option.isNone_iff_eq_none, Option.not_isSome_iff_eq_none] using this
    have hunm : tags.filter
        (fun tg => (dlookup (uidHex tg.uid) s.base.reverse_mappings).isNone) = tags := by
      apply List.filter_eq_self.mpr
      intro tg htg
      simp [hnone tg htg]
    rw [hunm]
    obtain ⟨w, hw, hwmem, hwall⟩ := py_max_by_spec
      (fun tg : MultiTagHandler.MTagInfo => tg.sens_res) tags hne
    refine ⟨w, hw, hwmem, ?_, ?_⟩
    · intro ⟨tg, htg, hs⟩
      rw [hnone tg htg] at hs
      cases hs
    · intro _
      exact ⟨hnone w hwmem, hwall⟩
  · rw [if_pos hm]
    obtain ⟨w, hw, hwmem, hwall⟩ := py_min_by_spec
      (fun tg : MultiTagHandler.MTagInfo =>
        (dlookup (uidHex tg.uid) s.base.reverse_mappings).getD 0)
      (tags.filter (fun tg => (dlookup (uidHex tg.uid) s.base.reverse_mappings).isSome)) hm
    have hwtag := List.mem_filter.mp hwmem
    obtain ⟨pw, hpw⟩ := Option.isSome_iff_exists.mp hwtag.2
    refine ⟨w, hw, hwtag.1, ?_, ?_⟩
    · intro _
      refine ⟨pw, hpw, ?_⟩
      intro tg htg pt hpt
      have htgm : tg ∈ tags.filter
          (fun tg => (dlookup (uidHex tg.uid) s.base.reverse_mappings).isSome) :=
        List.mem_filter.mpr ⟨htg, by rw [hpt]; rfl⟩
      have := hwall tg htgm
      rw [hpw, hpt] at this
      simpa using this
    · intro hall
      exact absurd (hall w hwtag.1) (by rw [hpw]; exact fun e => Option.noConfusion e)

/-- Claim C7: under the specific arbitration strategy, for every non-empty
tag list the selected winner is a member of the list; when at least one
tag is mapped, the winner is mapped and its mapped page number is minimal
among all mapped tags; when no tag is mapped, the winner is unmapped with
maximal sens_res (the closest fallback). -/
theorem C7_specific_strategy (s : MultiTagHandler.State)
    (tags : List MultiTagHandler.MTagInfo)
    (hstrat : s.tag_priority_strategy = "specific") (hne : ¬ tags = []) :
    ∃ w, MultiTagHandler.select_priority_tag s tags = some w ∧ w ∈ tags ∧
      ((∃ tg ∈ tags, (dlookup (uidHex tg.uid) s.base.reverse_mappings).isSome = true) →
        ∃ pw, dlookup (uidHex w.uid) s.base.reverse_mappings = some pw ∧
          ∀ tg ∈ tags, ∀ pt, dlookup (uidHex tg.uid) s.base.reverse_mappings = some pt →
            pw ≤ pt) ∧
      ((∀ tg ∈ tags, dlookup (uidHex tg.uid) s.base.reverse_mappings = none) →
        dlookup (uidHex w.uid) s.base.reverse_mappings = none ∧
          ∀ tg ∈ tags, tg.sens_res ≤ w.sens_res) := by
  cases tags with
  | nil => exact absurd rfl hne
  | cons x t =>
    by_cases ht : t = []
    · subst ht
      refine ⟨x, by simp [MultiTagHandler.select_priority_tag], List.mem_singleton_self x,
        ?_, ?_⟩
      · intro ⟨tg, htg, hs⟩
        rw [List.mem_singleton.mp htg] at hs
        obtain ⟨pw, hpw⟩ := Option.isSome_iff_exists.mp hs
        refine ⟨pw, hpw, ?_⟩
        intro tg2 htg2 pt hpt
        rw [List.mem_singleton.mp htg2] at hpt
        rw [hpt] at hpw
        exact le_of_eq (Option.some.inj hpw).symm
      · intro hall
        refine ⟨hall x (List.mem_singleton_self x), ?_⟩
        intro tg htg
        rw [List.mem_singleton.mp htg]
    · have hlen1 : ¬ (x :: t).length = 1 := by
        cases t with
        | nil => exact absurd rfl ht
        | cons a b => simp
      rw [MultiTagHandler.select_priority_tag, if_neg hne, if_neg hlen1, hstrat,
        if_neg (by decide), if_neg (by decide), if_pos rfl]
      exact select_by_mapping_priority_spec s (x :: t) hne

/-- Claim C7 witness: the specific strategy theorem applied to the example
state (uid 01 mapped to page 2) and the example pair of one mapped and one
unmapped tag. -/
theorem C7_specific_strategy_witness :
    ∃ w, MultiTagHandler.select_priority_tag specific_example_state specific_example_tags
        = some w ∧
      w ∈ specific_example_tags ∧
      ((∃ tg ∈ specific_example_tags,
          (dlookup (uidHex tg.uid)
            specific_example_state.base.reverse_mappings).isSome = true) →
        ∃ pw, dlookup (uidHex w.uid) specific_example_state.base.reverse_mappings = some pw ∧
          ∀ tg ∈ specific_example_tags,
            ∀ pt, dlookup (uidHex tg.uid) specific_example_state.base.reverse_mappings
              = some pt → pw ≤ pt) ∧
      ((∀ tg ∈ specific_example_tags,
          dlookup (uidHex tg.uid) specific_example_state.base.reverse_mappings = none) →
        dlookup (uidHex w.uid) specific_example_state.base.reverse_mappings = none ∧
          ∀ tg ∈ specific_example_tags, tg.sens_res ≤ w.sens_res) :=
  C7_specific_strategy specific_example_state specific_example_tags rfl
    (by simp [specific_example_tags])

/-! Single-tag and multi-tag step characterizations for claim C4. -/

theorem process_tag_suppressed (s : PN532Controller.State) (tag : PN532Controller.TagInfo)
    (now : ℚ) (block_text : Option String)
    (hdeb : s.last_tag_uid = some (uidHex tag.uid) ∧
      now - s.last_tag_time < s.tag_cooldown) :
    PN532Controller.process_tag s tag now block_text = (s, none) := by
  unfold PN532Controller.process_tag
  rw [if_pos hdeb]

theorem process_tag_mapped (s : PN532Controller.State) (tag : PN532Controller.TagInfo)
    (now : ℚ) (block_text : Option String) (page : Nat)
    (hdeb : ¬ (s.last_tag_uid = some (uidHex tag.uid) ∧
      now - s.last_tag_time < s.tag_cooldown))
    (hlearn : s.learning_mode = false)
    (hmap : dlookup (uidHex tag.uid) s.reverse_mappings = some page) :
    PN532Controller.process_tag s tag now block_text
      = ({ s with last_tag_uid := some (uidHex tag.uid), last_tag_time := now },
          some page) := by
  unfold PN532Controller.process_tag
  rw [if_neg hdeb]
  dsimp only
  rw [hlearn]
  rw [if_neg (fun hc => Bool.noConfusion hc)]
  rw [hmap]

theorem process_tag_unmapped_no_read (s : PN532Controller.State)
    (tag : PN532Controller.TagInfo) (now : ℚ)
    (hdeb : ¬ (s.last_tag_uid = some (uidHex tag.uid) ∧
      now - s.last_tag_time < s.tag_cooldown))
    (hlearn : s.learning_mode = false)
    (hmap : dlookup (uidHex tag.uid) s.reverse_mappings = none) :
    PN532Controller.process_tag s tag now none
      = ({ s with last_tag_uid := some (uidHex tag.uid), last_tag_time := now }, none) := by
  unfold PN532Controller.process_tag
  rw [if_neg hdeb]
  dsimp only
  rw [hlearn]
  rw [if_neg (fun hc => Bool.noConfusion hc)]
  rw [hmap]

theorem process_multiple_suppressed (s : MultiTagHandler.State)
    (tags : List MultiTagHandler.MTagInfo) (now : ℚ) (block_text : Option String)
    (w : MultiTagHandler.MTagInfo)
    (hsel : MultiTagHandler.select_priority_tag s tags = some w)
    (hdeb : s.base.last_tag_uid = some (uidHex w.uid) ∧
      now - s.base.last_tag_time < s.multi_tag_cooldown) :
    MultiTagHandler.process_multiple_tags s tags now block_text = (s, none) := by
  unfold MultiTagHandler.process_multiple_tags
  rw [hsel]
  dsimp only
  rw [if_pos hdeb]

theorem process_multiple_single_mapped (s : MultiTagHandler.State)
    (tg : MultiTagHandler.MTagInfo) (now : ℚ) (block_text : Option String) (page : Nat)
    (hdeb : ¬ (s.base.last_tag_uid = some (uidHex tg.uid) ∧
      now - s.base.last_tag_time < s.multi_tag_cooldown))
    (hlearn : s.base.learning_mode = false)
    (hmap : dlookup (uidHex tg.uid) s.base.reverse_mappings = some page) :
    (MultiTagHandler.process_multiple_tags s [tg] now block_text).2 = some page ∧
    (MultiTagHandler.process_multiple_tags s [tg] now block_text).1.base.learning_mode
      = false ∧
    (MultiTagHandler.process_multiple_tags s [tg] now block_text).1.base.reverse_mappings
      = s.base.reverse_mappings ∧
    (MultiTagHandler.process_multiple_tags s [tg] now block_text).1.base.last_tag_uid
      = some (uidHex tg.uid) ∧
    (MultiTagHandler.process_multiple_tags s [tg] now block_text).1.base.last_tag_time
      = now ∧
    (MultiTagHandler.process_multiple_tags s [tg] now block_text).1.multi_tag_cooldown
      = s.multi_tag_cooldown := by
  have hsel : MultiTagHandler.select_priority_tag s [tg] = some tg := by
    simp [MultiTagHandler.select_priority_tag]
  unfold MultiTagHandler.process_multiple_tags
  rw [hsel]
  dsimp only
  rw [if_neg hdeb]
  unfold MultiTagHandler.process_selected_tag
  dsimp only
  rw [hlearn]
  rw [if_neg (fun hc => Bool.noConfusion hc)]
  rw [hmap]
  dsimp only
  exact ⟨rfl, rfl, rfl, rfl, rfl, rfl⟩

/-- Claim C4 counterexample: an unmapped tag (uid de, hardware read
failing) is processed twice, at times 0 and 10, far beyond the default
0.5 s cooldown, yet zero navigation events are emitted instead of the two
the claim requires. -/
theorem C4_counterexample :
    (PN532Controller.process_tag (PN532Controller.init none 115200 8890 10)
      { tag_number := 1, sens_res := 4, sel_res := 8, uid := [0xde] } 0 none).2 = none ∧
    (PN532Controller.process_tag
      (PN532Controller.process_tag (PN532Controller.init none 115200 8890 10)
        { tag_number := 1, sens_res := 4, sel_res := 8, uid := [0xde] } 0 none).1
      { tag_number := 1, sens_res := 4, sel_res := 8, uid := [0xde] } 10 none).2 = none ∧
    (10 : ℚ) - 0 > (PN532Controller.init none 115200 8890 10).tag_cooldown := by
  have e1 := process_tag_unmapped_no_read (PN532Controller.init none 115200 8890 10)
    { tag_number := 1, sens_res := 4, sel_res := 8, uid := [0xde] } 0
    (fun hc => Option.noConfusion hc.1) rfl rfl
  have e2 := process_tag_unmapped_no_read
    ({ PN532Controller.init none 115200 8890 10 with
        last_tag_uid := some (uidHex [0xde]), last_tag_time := 0 })
    { tag_number := 1, sens_res := 4, sel_res := 8, uid := [0xde] } 10
    (fun hc => absurd hc.2 (show ¬ ((10 : ℚ) - 0 < 1/2) by norm_num)) rfl rfl
  refine ⟨by rw [e1], ?_, ?_⟩
  · rw [e1]
    dsimp only
    rw [e2]
  · show (10 : ℚ) - 0 > 1/2
    norm_num

/-- Claim C4 (amended): for the single-tag step process_tag and the
multi-tag step process_multiple_tags, a second detection of the same uid
while the elapsed time since the last accepted (uid, time) pair is under
the cooldown is suppressed, so the pair of detections emits at most one
navigation event; when the uid is mapped, learning mode is off and the
first detection is not itself suppressed, two detections separated by more
than the cooldown emit exactly two events; the cooldown defaults are 0.5 s
for the single-tag controller and 1.0 s for the multi-tag handler. -/
theorem C4_debounce_amended :
    (∀ (s : PN532Controller.State) (tag : PN532Controller.TagInfo) (t1 t2 : ℚ)
      (b1 b2 : Option String),
      (PN532Controller.process_tag s tag t1 b1).1.last_tag_uid = some (uidHex tag.uid) →
      t2 - (PN532Controller.process_tag s tag t1 b1).1.last_tag_time
        < (PN532Controller.process_tag s tag t1 b1).1.tag_cooldown →
      emit_count (PN532Controller.process_tag s tag t1 b1).2
        + emit_count (PN532Controller.process_tag
            (PN532Controller.process_tag s tag t1 b1).1 tag t2 b2).2 ≤ 1) ∧
    (∀ (s : PN532Controller.State) (tag : PN532Controller.TagInfo) (t1 t2 : ℚ)
      (b1 b2 : Option String) (page : Nat),
      s.learning_mode = false →
      dlookup (uidHex tag.uid) s.reverse_mappings = some page →
      ¬ s.last_tag_uid = some (uidHex tag.uid) →
      t2 - t1 > s.tag_cooldown →
      (PN532Controller.process_tag s tag t1 b1).2 = some page ∧
      (PN532Controller.process_tag (PN532Controller.process_tag s tag t1 b1).1
        tag t2 b2).2 = some page) ∧
    (∀ (port : Option String) (baudrate udp_port total_pages : Nat),
      (PN532Controller.init port baudrate udp_port total_pages).tag_cooldown = 1/2) ∧
    (∀ (port : Option String) (udp_port total_pages : Nat),
      (MultiTagHandler.init port udp_port total_pages).multi_tag_cooldown = 1) ∧
    (∀ (s : MultiTagHandler.State) (tags1 tags2 : List MultiTagHandler.MTagInfo)
      (t1 t2 : ℚ) (b1 b2 : Option String) (w2 : MultiTagHandler.MTagInfo),
      MultiTagHandler.select_priority_tag
        (MultiTagHandler.process_multiple_tags s tags1 t1 b1).1 tags2 = some w2 →
      (MultiTagHandler.process_multiple_tags s tags1 t1 b1).1.base.last_tag_uid
        = some (uidHex w2.uid) →
      t2 - (MultiTagHandler.process_multiple_tags s tags1 t1 b1).1.base.last_tag_time
        < (MultiTagHandler.process_multiple_tags s tags1 t1 b1).1.multi_tag_cooldown →
      emit_count (MultiTagHandler.process_multiple_tags s tags1 t1 b1).2
        + emit_count (MultiTagHandler.process_multiple_tags
          (MultiTagHandler.process_multiple_tags s tags1 t1 b1).1 tags2 t2 b2).2 ≤ 1) ∧
    (∀ (s : MultiTagHandler.State) (tg : MultiTagHandler.MTagInfo) (t1 t2 : ℚ)
      (b1 b2 : Option String) (page : Nat),
      s.base.learning_mode = false →
      dlookup (uidHex tg.uid) s.base.reverse_mappings = some page →
      ¬ s.base.last_tag_uid = some (uidHex tg.uid) →
      t2 - t1 > s.multi_tag_cooldown →
      (MultiTagHandler.process_multiple_tags s [tg] t1 b1).2 = some page ∧
      (MultiTagHandler.process_multiple_tags
        (MultiTagHandler.process_multiple_tags s [tg] t1 b1).1 [tg] t2 b2).2
        = some page) := by
  refine ⟨?_, ?_, fun _ _ _ _ => rfl, fun _ _ _ => rfl, ?_, ?_⟩
  · intro s tag t1 t2 b1 b2 hu ht
    rw [process_tag_suppressed _ tag t2 b2 ⟨hu, ht⟩]
    cases he : (PN532Controller.process_tag s tag t1 b1).2 <;> simp [emit_count]
  · intro s tag t1 t2 b1 b2 page hlearn hmap hne hgt
    have e1 := process_tag_mapped s tag t1 b1 page (fun hc => hne hc.1) hlearn hmap
    have e2 := process_tag_mapped
      ({ s with last_tag_uid := some (uidHex tag.uid), last_tag_time := t1 }) tag t2 b2 page
      (fun hc => absurd hc.2 (lt_asymm hgt)) hlearn hmap
    constructor
    · rw [e1]
    · rw [e1]
      dsimp only
      rw [e2]
  · intro s tags1 tags2 t1 t2 b1 b2 w2 hsel hu ht
    rw [process_multiple_suppressed _ tags2 t2 b2 w2 hsel ⟨hu, ht⟩]
    cases he : (MultiTagHandler.process_multiple_tags s tags1 t1 b1).2 <;> simp [emit_count]
  · intro s tg t1 t2 b1 b2 page hlearn hmap hne hgt
    obtain ⟨g1, glearn, grev, guid, gtime, gcool⟩ :=
      process_multiple_single_mapped s tg t1 b1 page (fun hc => hne hc.1) hlearn hmap
    refine ⟨g1, ?_⟩
    obtain ⟨g2, _, _, _, _, _⟩ := process_multiple_single_mapped
      (MultiTagHandler.process_multiple_tags s [tg] t1 b1).1 tg t2 b2 page
      (by
        intro hc
        rw [gtime, gcool] at hc
        exact absurd hc.2 (lt_asymm hgt))
      glearn (by rw [grev]; exact hmap)
    exact g2

/-- Claim C4 witness: the two-event half of the amended debounce theorem
applied to a controller whose reverse index maps uid de to page 7, with
detections at times 0 and 10 against the default 0.5 s cooldown. -/
theorem C4_debounce_witness :
    (PN532Controller.process_tag
      ({ PN532Controller.init none 115200 8890 10 with reverse_mappings := [("de", 7)] })
      { tag_number := 1, sens_res := 4, sel_res := 8, uid := [0xde] } 0 none).2 = some 7 ∧
    (PN532Controller.process_tag
      (PN532Controller.process_tag
        ({ PN532Controller.init none 115200 8890 10 with reverse_mappings := [("de", 7)] })
        { tag_number := 1, sens_res := 4, sel_res := 8, uid := [0xde] } 0 none).1
      { tag_number := 1, sens_res := 4, sel_res := 8, uid := [0xde] } 10 none).2 = some 7 :=
  C4_debounce_amended.2.1
    ({ PN532Controller.init none 115200 8890 10 with reverse_mappings := [("de", 7)] })
    { tag_number := 1, sens_res := 4, sel_res := 8, uid := [0xde] } 0 10 none none 7
    rfl (by decide) (fun hc => Option.noConfusion hc)
    (show (1 : ℚ)/2 < 10 - 0 by norm_num)

/-- Claim C8 witness: the amended shutdown ordering theorem at the
concrete open-channel shutdown paths. -/
theorem C8_shutdown_flush_witness :
    (PageNavigationController.cleanup_trace true).getLast? = some ShutdownStep.save_store ∧
    ¬ ShutdownStep.save_store ∈ PN532Controller.stop_monitoring_trace true :=
  ⟨(C8_shutdown_flush_amended true true).1, (C8_shutdown_flush_amended true true).2.2⟩
